import Mathlib

/-!
Shallow embedding of the particle-filter core in
`src/robot_localization/pf.py` (class `Particle` and class `ParticleFilter`).

Conventions of the embedding:
* Python floats are modelled as real numbers (`ℝ`); `np.cos`/`np.sin` become
  `Real.cos`/`Real.sin`.
* The external collaborators (occupancy field, transform helper, the random
  sampler `draw_random_sample`, and numpy's random draws) are not part of the
  repository source; they enter as explicit parameters, and the two whose
  behaviour matters to a claim (`angle_normalize`,
  `send_last_map_to_odom_transform`) are modelled from the spec's collaborator
  contracts, as marked in their doc comments.
* Random draws are modelled as explicit noise streams `ℕ → OdomNoise`,
  indexed by the order in which the Python code calls `np.random.randn()`
  (one `OdomNoise` triple per loop-body execution).
* Fallible code returns `Option`: `np.argmax` of an empty sequence raises
  `ValueError` in Python, so `np_argmax [] = none`, and a filter cycle that
  would raise returns `none`.
-/

noncomputable section

namespace RobotLocalization

/-- Embeds `Particle` (pf.py lines 23-54): a pose hypothesis `x, y, theta`
with weight `w`. -/
structure Particle where
  x : ℝ
  y : ℝ
  theta : ℝ
  w : ℝ

/-- An `(x, y, theta)` triple as returned by
`TFHelper.convert_pose_to_xy_and_theta` (the transform collaborator delivers
poses to the filter only through such triples). -/
structure XYTheta where
  x : ℝ
  y : ℝ
  theta : ℝ

/-- One triple of scalar noise draws (`np.random.randn()` /
`np.random.uniform`), consumed by one loop-body execution. -/
structure OdomNoise where
  nx : ℝ
  ny : ℝ
  nt : ℝ

/-- Modelled from the spec: `TFHelper.angle_normalize` lives in
`helper_functions.py`, which is not part of this repository's source; the
spec's transform-collaborator contract states
`normalize_angle(theta) → theta in (−π, π]`.  This realization subtracts the
unique multiple of `2π` that lands in that interval. -/
def angle_normalize (θ : ℝ) : ℝ :=
  θ - 2 * Real.pi * ⌈(θ - Real.pi) / (2 * Real.pi)⌉

/-- Embeds `Particle.transform_points_particle_to_map_frame`
(pf.py lines 51-54) acting on a single point: rotation by `theta`, then
translation by `(x, y)`. -/
def Particle.transform_point_particle_to_map_frame (p : Particle) (q : ℝ × ℝ) :
    ℝ × ℝ :=
  (Real.cos p.theta * q.1 - Real.sin p.theta * q.2 + p.x,
   Real.sin p.theta * q.1 + Real.cos p.theta * q.2 + p.y)

/-- The body of the particle loop in `update_particles_with_odom`
(pf.py lines 240-242): the three `+=`/assignment lines, all reading the
particle's pre-update `theta`, with one fresh `randn()` draw per line. -/
def odom_step (xy_sigma_odom theta_sigma_odom delta_x_n delta_y_n
    delta_theta : ℝ) (ns : OdomNoise) (p : Particle) : Particle :=
  { x := p.x + Real.cos p.theta * delta_x_n - Real.sin p.theta * delta_y_n
        + xy_sigma_odom * ns.nx,
    y := p.y + Real.sin p.theta * delta_x_n + Real.cos p.theta * delta_y_n
        + xy_sigma_odom * ns.ny,
    theta := angle_normalize (p.theta + delta_theta)
        + theta_sigma_odom * ns.nt,
    w := p.w }

/-- Embeds the `for p in self.particle_cloud: ... self.particle_cloud.remove(p)`
loop of `update_particles_with_odom` (pf.py lines 238-244) with Python's
index-based list-iterator semantics: `done` is the prefix of the (mutated)
list that the iterator has already passed, `todo` the suffix from the
iterator's position on, and `i` counts loop-body executions (one noise triple
each).  `list.remove` on the current element shifts the suffix left while the
iterator index still advances, so the element right after a removed one is
carried over unprocessed (`done ++ [q]`). -/
def odomLoop (free : ℝ → ℝ → Bool)
    (xy_sigma_odom theta_sigma_odom delta_x_n delta_y_n delta_theta : ℝ)
    (noise : ℕ → OdomNoise) :
    ℕ → List Particle → List Particle → List Particle
  | _, done, [] => done
  | i, done, p :: todo =>
    let p' := odom_step xy_sigma_odom theta_sigma_odom delta_x_n delta_y_n
        delta_theta (noise i) p
    if free p'.x p'.y then
      odomLoop free xy_sigma_odom theta_sigma_odom delta_x_n delta_y_n
        delta_theta noise (i + 1) (done ++ [p']) todo
    else
      match todo with
      | [] => done
      | q :: todo' =>
        odomLoop free xy_sigma_odom theta_sigma_odom delta_x_n delta_y_n
          delta_theta noise (i + 1) (done ++ [q]) todo'

/-- Embeds `ParticleFilter.update_particles_with_odom` (pf.py lines 218-244).
`free` is `occupancy_field.is_free_position` (external collaborator).  If no
previous odometry snapshot exists the function only records the snapshot and
leaves the cloud untouched (the caller stores the new snapshot).  Note that
pf.py line 231 reassigns `self.current_odom_xy_theta` to the new snapshot
before lines 236-237 compute `delta_x_n`/`delta_y_n`, so the rotation there
uses the cosine/sine of the NEW snapshot's heading. -/
def update_particles_with_odom (free : ℝ → ℝ → Bool)
    (xy_sigma_odom theta_sigma_odom : ℝ) (noise : ℕ → OdomNoise)
    (current_odom_xy_theta : Option XYTheta) (new_odom_xy_theta : XYTheta)
    (cloud : List Particle) : List Particle :=
  match current_odom_xy_theta with
  | none => cloud
  | some cur =>
    let delta_x := new_odom_xy_theta.x - cur.x
    let delta_y := new_odom_xy_theta.y - cur.y
    let delta_theta := new_odom_xy_theta.theta - cur.theta
    let delta_x_n := Real.cos new_odom_xy_theta.theta * delta_x
        + Real.sin new_odom_xy_theta.theta * delta_y
    let delta_y_n := -Real.sin new_odom_xy_theta.theta * delta_x
        + Real.cos new_odom_xy_theta.theta * delta_y
    odomLoop free xy_sigma_odom theta_sigma_odom delta_x_n delta_y_n
      delta_theta noise 0 [] cloud

/-- Embeds `ParticleFilter.moved_far_enough_to_update` (pf.py lines 199-202):
raw componentwise differences against the thresholds, no angle
normalization. -/
def moved_far_enough_to_update (d_thresh a_thresh : ℝ)
    (current new : XYTheta) : Bool :=
  decide (|new.x - current.x| > d_thresh)
    || decide (|new.y - current.y| > d_thresh)
    || decide (|new.theta - current.theta| > a_thresh)

/-- Embeds `ParticleFilter.normalize_particles` (pf.py lines 317-324):
divide every weight by the total, or set every weight to
`1 / n_particles` (the configured target count, not the population size)
when the total is zero. -/
def normalize_particles (n_particles : ℤ) (cloud : List Particle) :
    List Particle :=
  let weight_sum := (cloud.map Particle.w).sum
  cloud.map fun p =>
    if weight_sum = 0 then { p with w := 1 / (n_particles : ℝ) }
    else { p with w := p.w / weight_sum }

/-- Models `np.argmax` (numpy, external): documented to return the index of
the first occurrence of the maximum value, and to raise `ValueError` on an
empty sequence (hence `none`). -/
def np_argmax (l : List ℝ) : Option ℕ :=
  if l.isEmpty then none
  else some (l.findIdx fun a => decide (∀ b ∈ l, b ≤ a))

/-- Embeds `ParticleFilter.update_robot_pose` (pf.py lines 205-216):
normalize, pick the particle at `np.argmax` of the weights, and hand the
estimate together with the current odometry pose to
`fix_map_to_odom_transform` (returned here as the correction pair).
`none` models the `ValueError` that `np.argmax` raises on an empty cloud. -/
def update_robot_pose (n_particles : ℤ) (odom_pose : XYTheta)
    (cloud : List Particle) :
    Option ((XYTheta × XYTheta) × List Particle) :=
  let cloud' := normalize_particles n_particles cloud
  match np_argmax (cloud'.map Particle.w) with
  | none => none
  | some i =>
    let best := cloud'.getD i ⟨0, 0, 0, 0⟩
    some ((⟨best.x, best.y, best.theta⟩, odom_pose), cloud')

/-- Embeds `ParticleFilter.update_particles_with_laser` (pf.py lines 265-276).
`field` is `occupancy_field.get_closest_obstacle_distance` (external).  Scan
points are converted to Cartesian in the robot frame, shifted by the lidar
x-offset, transformed by each particle's pose, and the particle's weight is
set (after the dead `p.w = 0` reset) to the number of points whose obstacle
distance is strictly below `close_obs_dist`. -/
def update_particles_with_laser (field : ℝ → ℝ → ℝ)
    (close_obs_dist lidar_offset : ℝ) (r th : List ℝ)
    (cloud : List Particle) : List Particle :=
  let scan_xy_n := (r.zip th).map fun q =>
    (Real.cos q.2 * q.1 + lidar_offset, Real.sin q.2 * q.1)
  cloud.map fun p =>
    { p with w :=
        (((scan_xy_n.map p.transform_point_particle_to_map_frame).countP
          fun q => decide (field q.1 q.2 < close_obs_dist) : ℕ) : ℝ) }

/-- Embeds `ParticleFilter.resample_particles` (pf.py lines 246-263).
`draw` is `draw_random_sample` from `helper_functions.py` (external, spec
§4.4: weight-proportional draw with replacement of duplicated particles),
taken as a parameter; each drawn particle is jittered with fresh noise and
its heading re-normalized. -/
def resample_particles (draw : List Particle → List ℝ → ℤ → List Particle)
    (noise : ℕ → OdomNoise) (n_particles : ℤ) (xy_sigma theta_sigma : ℝ)
    (cloud : List Particle) : List Particle :=
  let cloud' := normalize_particles n_particles cloud
  let weights := cloud'.map Particle.w
  let random_sample := draw cloud' weights n_particles
  random_sample.mapIdx fun i p =>
    { x := (noise i).nx * xy_sigma + p.x,
      y := (noise i).ny * xy_sigma + p.y,
      theta := angle_normalize ((noise i).nt * theta_sigma + p.theta),
      w := p.w }

/-- Embeds `ParticleFilter.initialize_particle_cloud_kidnap`
(pf.py lines 284-296): draw `n_particles` free-space points from the map
collaborator, jitter them, draw the heading uniformly (the draw itself is the
`nt` component of the noise stream), and build particles with the
constructor's default weight `1.0`. -/
def initialize_particle_cloud_kidnap (freePoints : ℤ → List (ℝ × ℝ))
    (noise : ℕ → OdomNoise) (n_particles : ℤ) (xy_sigma_init : ℝ) :
    List Particle :=
  (freePoints n_particles).mapIdx fun i q =>
    { x := q.1 + (noise i).nx * xy_sigma_init,
      y := q.2 + (noise i).ny * xy_sigma_init,
      theta := (noise i).nt,
      w := 1 }

/-- `int(x)` of Python on a float: truncation toward zero. -/
def pyInt (x : ℝ) : ℤ := if 0 ≤ x then ⌊x⌋ else ⌈x⌉

/-- The particle-count decay `self.n_particles = int(self.n_particles *
self.particle_decay_rate)` (pf.py line 192). -/
def decayed_n (n : ℤ) (rate : ℝ) : ℤ := pyInt ((n : ℝ) * rate)

/-- A laser scan as `run_loop` consumes it: the polar ranges/bearings the
transform collaborator extracts from the message, plus its timestamp. -/
structure ScanInput where
  r : List ℝ
  th : List ℝ
  stamp : ℕ

/-- The external collaborators and random draws one `run_loop` cycle reads:
the occupancy field, the transform lookup's answer for this scan, the
resampler's random choice, and the noise streams. -/
structure Env where
  is_free_position : ℝ → ℝ → Bool
  get_closest_obstacle_distance : ℝ → ℝ → ℝ
  n_random_free_point : ℤ → List (ℝ × ℝ)
  draw_random_sample : List Particle → List ℝ → ℤ → List Particle
  matching_odom_pose : Option XYTheta × Option ℝ
  odom_noise : ℕ → OdomNoise
  resample_noise : ℕ → OdomNoise
  init_noise : ℕ → OdomNoise

/-- The mutable attributes of `ParticleFilter` (pf.py lines 77-129) that the
claims touch.  `current_odom_xy_theta = []` (falsy) is `none`;
`last_correction` records the pair last handed to
`fix_map_to_odom_transform`, `none` if no estimate was ever produced. -/
structure PFState where
  n_particles : ℤ
  particle_decay_rate : ℝ
  d_thresh : ℝ
  a_thresh : ℝ
  xy_sigma : ℝ
  theta_sigma : ℝ
  xy_sigma_odom : ℝ
  theta_sigma_odom : ℝ
  xy_sigma_init : ℝ
  theta_sigma_init : ℝ
  close_obs_dist : ℝ
  lidar_offset : ℝ
  last_scan_timestamp : Option ℕ
  scan_to_process : Option ScanInput
  particle_cloud : List Particle
  current_odom_xy_theta : Option XYTheta
  last_correction : Option (XYTheta × XYTheta)

/-- The constants set in `ParticleFilter.__init__` (pf.py lines 84-122). -/
def initState : PFState :=
  { n_particles := 300
    particle_decay_rate := 0.98
    d_thresh := 0.02
    a_thresh := Real.pi / 6
    xy_sigma := 0.07
    theta_sigma := 0.3
    xy_sigma_odom := 0.1
    theta_sigma_odom := 0.1
    xy_sigma_init := 0.4
    theta_sigma_init := 0.3
    close_obs_dist := 0.01
    lidar_offset := -0.084
    last_scan_timestamp := none
    scan_to_process := none
    particle_cloud := []
    current_odom_xy_theta := none
    last_correction := none }

/-- Embeds `ParticleFilter.run_loop` (pf.py lines 146-197) for one cycle.
`none` models a Python exception escaping the cycle (which kills the
estimation thread, since `loop_wrapper` does not catch).  Publishing of the
particle cloud is a transport-boundary effect and is not part of the state. -/
def run_loop (env : Env) (st : PFState) : Option PFState :=
  match st.scan_to_process with
  | none => some st
  | some msg =>
    match env.matching_odom_pose with
    | (none, delta_t) =>
      match delta_t with
      | some t =>
        if t < 0 then some { st with scan_to_process := none } else some st
      | none => some st
    | (some new_pose, _) =>
      let st1 := { st with scan_to_process := none }
      match st1.current_odom_xy_theta with
      | none => some { st1 with current_odom_xy_theta := some new_pose }
      | some cur =>
        if st1.particle_cloud.isEmpty then
          let cloud0 := initialize_particle_cloud_kidnap env.n_random_free_point
            env.init_noise st1.n_particles st1.xy_sigma_init
          some { st1 with particle_cloud := cloud0 }
        else if moved_far_enough_to_update st1.d_thresh st1.a_thresh cur
            new_pose then
          let cloud1 := update_particles_with_odom env.is_free_position
            st1.xy_sigma_odom st1.theta_sigma_odom env.odom_noise (some cur)
            new_pose st1.particle_cloud
          let cloud2 := update_particles_with_laser
            env.get_closest_obstacle_distance st1.close_obs_dist
            st1.lidar_offset msg.r msg.th cloud1
          match update_robot_pose st1.n_particles new_pose cloud2 with
          | none => none
          | some (correction, cloud3) =>
            let n' := decayed_n st1.n_particles st1.particle_decay_rate
            let cloud4 := resample_particles env.draw_random_sample
              env.resample_noise n' st1.xy_sigma st1.theta_sigma cloud3
            some { st1 with particle_cloud := cloud4,
                            n_particles := n',
                            current_odom_xy_theta := some new_pose,
                            last_correction := some correction }
        else some st1

/-- Modelled from the spec: `TFHelper.send_last_map_to_odom_transform` lives
in `helper_functions.py`, which is not part of this repository's source; the
spec's §5 contract for the transform-correction publisher states that it
emits the last-computed map↔odometry correction and that, if no estimate has
ever been produced, it emits nothing. -/
def send_last_map_to_odom_transform
    (last_correction : Option (XYTheta × XYTheta)) (timestamp : ℕ) :
    Option ((XYTheta × XYTheta) × ℕ) :=
  match last_correction with
  | none => none
  | some c => some (c, timestamp)

/-- Embeds `ParticleFilter.pub_latest_transform` (pf.py lines 131-136): the
periodic timer tick; returns the emission it performs, `none` when nothing is
emitted.  The postdating of the timestamp by 0.1 s is one abstract tick. -/
def pub_latest_transform (st : PFState) : Option ((XYTheta × XYTheta) × ℕ) :=
  match st.last_scan_timestamp with
  | none => none
  | some ts => send_last_map_to_odom_transform st.last_correction (ts + 1)

/-- Embeds `ParticleFilter.scan_received` (pf.py lines 336-341): record the
timestamp, and keep the scan only if no scan is pending. -/
def scan_received (st : PFState) (msg : ScanInput) : PFState :=
  let st1 := { st with last_scan_timestamp := some msg.stamp }
  match st1.scan_to_process with
  | none => { st1 with scan_to_process := some msg }
  | some _ => st1

/-- The all-free occupancy answer (a map collaborator in which every position
is free). -/
def trueFree : ℝ → ℝ → Bool := fun _ _ => true

/-- The zero noise stream (every `randn()` draw equal to `0`). -/
def zeroNoise : ℕ → OdomNoise := fun _ => ⟨0, 0, 0⟩

/-- A map collaborator answer in which only positions with `x < 10` are
free. -/
def tenFree : ℝ → ℝ → Bool := fun x _ => decide (x < 10)

/-- The motion-update delta rotation written as the spec's §4.1 words state
it — rotation by the heading of the PREVIOUS odometry snapshot — declared
only to be compared against `update_particles_with_odom`, which follows the
source. -/
def update_particles_with_odom_specRotation (free : ℝ → ℝ → Bool)
    (xy_sigma_odom theta_sigma_odom : ℝ) (noise : ℕ → OdomNoise)
    (current_odom_xy_theta : Option XYTheta) (new_odom_xy_theta : XYTheta)
    (cloud : List Particle) : List Particle :=
  match current_odom_xy_theta with
  | none => cloud
  | some cur =>
    let delta_x := new_odom_xy_theta.x - cur.x
    let delta_y := new_odom_xy_theta.y - cur.y
    let delta_theta := new_odom_xy_theta.theta - cur.theta
    let delta_x_n := Real.cos cur.theta * delta_x
        + Real.sin cur.theta * delta_y
    let delta_y_n := -Real.sin cur.theta * delta_x
        + Real.cos cur.theta * delta_y
    odomLoop free xy_sigma_odom theta_sigma_odom delta_x_n delta_y_n
      delta_theta noise 0 [] cloud

/-- Environment for exercising a full update cycle on a one-particle cloud
over an all-free map whose obstacles are all far away, with zero noise and a
resampler draw that returns the empty selection. -/
def envCycle : Env :=
  { is_free_position := trueFree
    get_closest_obstacle_distance := fun _ _ => 100
    n_random_free_point := fun _ => []
    draw_random_sample := fun _ _ _ => []
    matching_odom_pose := (some ⟨1, 0, 0⟩, some 0)
    odom_noise := zeroNoise
    resample_noise := zeroNoise
    init_noise := zeroNoise }

/-- Filter state with a pending scan, a previous odometry snapshot at the
origin and a single particle at the origin, with the target particle count
already decayed down to `1`. -/
def stOne : PFState :=
  { initState with
      n_particles := 1
      last_scan_timestamp := some 0
      scan_to_process := some ⟨[], [], 0⟩
      particle_cloud := [⟨0, 0, 0, 1⟩]
      current_odom_xy_theta := some ⟨0, 0, 0⟩ }

/-- Environment for the population-collapse run: the only particle is
propagated to `x = 101`, which `tenFree` rejects. -/
def envCollapse : Env :=
  { is_free_position := tenFree
    get_closest_obstacle_distance := fun _ _ => 100
    n_random_free_point := fun _ => []
    draw_random_sample := fun _ _ _ => []
    matching_odom_pose := (some ⟨1, 0, 0⟩, some 0)
    odom_noise := zeroNoise
    resample_noise := zeroNoise
    init_noise := zeroNoise }

/-- Filter state whose single particle sits at `x = 100`, about to be pushed
off-map by the odometry delta `(1, 0, 0)`. -/
def stCollapse : PFState :=
  { initState with
      last_scan_timestamp := some 0
      scan_to_process := some ⟨[], [], 0⟩
      particle_cloud := [⟨100, 0, 0, 1⟩]
      current_odom_xy_theta := some ⟨0, 0, 0⟩ }

/-- State for the wrap-around gating run: previous heading just below `π`,
one particle, a pending scan; the new odometry pose heading is just above
`−π`. -/
def stWrap : PFState :=
  { initState with
      last_scan_timestamp := some 0
      scan_to_process := some ⟨[], [], 0⟩
      particle_cloud := [⟨0, 0, 0, 1⟩]
      current_odom_xy_theta := some ⟨0, 0, Real.pi - 1/100⟩ }

/-- Environment for the wrap-around gating run: the odometry lookup reports
the same position with heading `−π + 0.01`. -/
def envWrap : Env :=
  { is_free_position := trueFree
    get_closest_obstacle_distance := fun _ _ => 100
    n_random_free_point := fun _ => []
    draw_random_sample := fun _ _ _ => []
    matching_odom_pose := (some ⟨0, 0, -Real.pi + 1/100⟩, some 0)
    odom_noise := zeroNoise
    resample_noise := zeroNoise
    init_noise := zeroNoise }

theorem angle_normalize_range (θ : ℝ) :
    -Real.pi < angle_normalize θ ∧ angle_normalize θ ≤ Real.pi := by
  have hπ : (0 : ℝ) < Real.pi := Real.pi_pos
  have h2π : (0 : ℝ) < 2 * Real.pi := by linarith
  set c : ℝ := ((⌈(θ - Real.pi) / (2 * Real.pi)⌉ : ℤ) : ℝ) with hc
  have hle : (θ - Real.pi) / (2 * Real.pi) ≤ c := Int.le_ceil _
  have hlt : c < (θ - Real.pi) / (2 * Real.pi) + 1 := Int.ceil_lt_add_one _
  have h1 : θ - Real.pi ≤ c * (2 * Real.pi) := (div_le_iff₀ h2π).1 hle
  have h2 : (c - 1) * (2 * Real.pi) < θ - Real.pi := by
    have := (lt_div_iff₀ h2π).1 (by linarith : c - 1 < (θ - Real.pi) / (2 * Real.pi))
    linarith
  unfold angle_normalize
  rw [← hc]
  constructor <;> nlinarith

theorem angle_normalize_zero : angle_normalize 0 = 0 := by
  unfold angle_normalize
  have hd : ((0 : ℝ) - Real.pi) / (2 * Real.pi) = -(1 / 2) := by
    have hπ : Real.pi ≠ 0 := Real.pi_ne_zero
    field_simp
    ring
  rw [hd, show ⌈(-(1 / 2) : ℝ)⌉ = 0 from by rw [Int.ceil_eq_iff]; norm_num]
  simp


/-- C9: the periodic transform-correction publisher never emits a
map→odometry correction before the first pose estimate has been produced:
whenever no correction has ever been recorded by `update_robot_pose`'s
`fix_map_to_odom_transform` call, a tick of `pub_latest_transform` emits
nothing. -/
theorem pub_latest_transform_silent_without_estimate (st : PFState)
    (h : st.last_correction = none) : pub_latest_transform st = none := by
  unfold pub_latest_transform send_last_map_to_odom_transform
  cases hts : st.last_scan_timestamp <;> simp [h]

theorem pub_latest_transform_silent_without_estimate_witness :
    pub_latest_transform { initState with last_scan_timestamp := some 5 }
      = none :=
  pub_latest_transform_silent_without_estimate _ rfl

theorem list_sum_map_div {α : Type} (l : List α) (f : α → ℝ) (c : ℝ) :
    (l.map fun a => f a / c).sum = (l.map f).sum / c := by
  induction l with
  | nil => simp
  | cons a t ih => simp [ih, add_div]

/-- C4 counterexample: the claim reads the uniform fallback as `1/N` with
`N` the population size; on an all-zero-weight population of size `1` with
the configured target count at its initial value `300`, `normalize_particles`
sets the weight to `1/300`, not `1`. -/
theorem normalize_zero_fallback_not_population_size :
    ((normalize_particles 300 [⟨0, 0, 0, 0⟩]).map Particle.w = [1 / 300])
    ∧ ((1 : ℝ) / 300 ≠ 1 / 1) := by
  constructor
  · simp [normalize_particles]
  · norm_num

/-- C4 amended: for non-negative weights, if some weight is positive then
the weights sum to `1` exactly after `normalize_particles`; if every weight
is zero, every particle's weight becomes `1 / n_particles`, where
`n_particles` is the filter's configured target count (which need not equal
the population size; `n_particles ≠ 0` keeps Python's `1/n_particles` from
raising `ZeroDivisionError`). -/
theorem normalize_particles_spec (n : ℤ) (cloud : List Particle)
    (hnn : ∀ p ∈ cloud, 0 ≤ p.w) :
    ((∃ p ∈ cloud, 0 < p.w) →
      ((normalize_particles n cloud).map Particle.w).sum = 1)
    ∧ (n ≠ 0 → (∀ p ∈ cloud, p.w = 0) →
      ∀ p ∈ normalize_particles n cloud, p.w = 1 / (n : ℝ)) := by
  constructor
  · rintro ⟨p0, hp0, hw0⟩
    have hS : 0 < (cloud.map Particle.w).sum := by
      have h1 : p0.w ≤ (cloud.map Particle.w).sum :=
        List.single_le_sum (by simpa using hnn) _ (List.mem_map_of_mem _ hp0)
      linarith
    have hS' : (cloud.map Particle.w).sum ≠ 0 := ne_of_gt hS
    unfold normalize_particles
    simp only [hS', if_false, ite_false, List.map_map]
    show ((cloud.map fun p => p.w / (cloud.map Particle.w).sum)).sum = 1
    rw [list_sum_map_div, div_self hS']
  · intro _ hz p hp
    have hS : (cloud.map Particle.w).sum = 0 :=
      List.sum_eq_zero (by simpa using hz)
    unfold normalize_particles at hp
    simp only [hS, if_true, ite_true] at hp
    obtain ⟨q, _, rfl⟩ := List.mem_map.1 hp
    simp [hS]

theorem normalize_particles_spec_witness :
    (((normalize_particles 300
        [⟨0, 0, 0, 2⟩, ⟨0, 0, 0, 6⟩]).map Particle.w).sum = 1)
    ∧ (∀ p ∈ normalize_particles 300 [⟨0, 0, 0, 0⟩, ⟨0, 0, 0, 0⟩],
        p.w = 1 / ((300 : ℤ) : ℝ)) := by
  constructor
  · refine (normalize_particles_spec 300 [⟨0, 0, 0, 2⟩, ⟨0, 0, 0, 6⟩] ?_).1
      ⟨⟨0, 0, 0, 2⟩, by simp, by norm_num⟩
    intro p hp
    simp only [List.mem_cons, List.not_mem_nil, or_false] at hp
    rcases hp with rfl | rfl <;> norm_num
  · refine (normalize_particles_spec 300 [⟨0, 0, 0, 0⟩, ⟨0, 0, 0, 0⟩] ?_).2
      (by norm_num) ?_
    all_goals
      intro p hp
      simp only [List.mem_cons, List.not_mem_nil, or_false] at hp
      rcases hp with rfl | rfl <;> norm_num

theorem mem_odomLoop_trueFree (xy_sigma_odom theta_sigma_odom delta_x_n
    delta_y_n delta_theta : ℝ) (noise : ℕ → OdomNoise) :
    ∀ (todo : List Particle) (i : ℕ) (done : List Particle) (p : Particle),
      p ∈ odomLoop trueFree xy_sigma_odom theta_sigma_odom delta_x_n
          delta_y_n delta_theta noise i done todo →
      p ∈ done ∨ ∃ i' q, p = odom_step xy_sigma_odom theta_sigma_odom
          delta_x_n delta_y_n delta_theta (noise i') q := by
  intro todo
  induction todo with
  | nil =>
    intro i done p h
    simpa [odomLoop] using Or.inl h
  | cons a t ih =>
    intro i done p h
    rw [odomLoop.eq_def] at h
    simp only [trueFree, if_true, ite_true] at h
    rcases ih (i + 1) _ p h with hd | he
    · rcases List.mem_append.1 hd with h1 | h2
      · exact Or.inl h1
      · exact Or.inr ⟨i, a, by simpa using h2⟩
    · exact Or.inr he

/-- C5 amended: the motion update normalizes each propagated particle's
heading to (−π, π] BEFORE adding the Gaussian heading noise
(pf.py line 242), so the headings lie in (−π, π] whenever the heading-noise
draws are zero (here, over an all-free map, so that no particle is
discarded); a nonzero draw can push a heading outside the interval. -/
theorem heading_in_range_when_noise_zero (xy_sigma_odom theta_sigma_odom : ℝ)
    (noise : ℕ → OdomNoise) (hnt : ∀ i, (noise i).nt = 0)
    (cur new : XYTheta) (cloud : List Particle) :
    ∀ p ∈ update_particles_with_odom trueFree xy_sigma_odom theta_sigma_odom
        noise (some cur) new cloud,
      -Real.pi < p.theta ∧ p.theta ≤ Real.pi := by
  intro p hp
  unfold update_particles_with_odom at hp
  rcases mem_odomLoop_trueFree xy_sigma_odom theta_sigma_odom
      (Real.cos new.theta * (new.x - cur.x)
        + Real.sin new.theta * (new.y - cur.y))
      (-Real.sin new.theta * (new.x - cur.x)
        + Real.cos new.theta * (new.y - cur.y))
      (new.theta - cur.theta) noise cloud 0 [] p hp with hd | ⟨i', q, rfl⟩
  · simp at hd
  · simp only [odom_step, hnt i', mul_zero, add_zero]
    exact angle_normalize_range _

theorem heading_in_range_when_noise_zero_witness :
    -Real.pi < angle_normalize 0 ∧ angle_normalize 0 ≤ Real.pi := by
  have heval : update_particles_with_odom trueFree 0 1 zeroNoise
      (some ⟨0, 0, 0⟩) ⟨0, 0, 0⟩ [⟨0, 0, 0, 1⟩]
      = [⟨0, 0, angle_normalize 0, 1⟩] := by
    unfold update_particles_with_odom odomLoop odom_step
    norm_num [trueFree, zeroNoise, Real.cos_zero, Real.sin_zero]
    rw [odomLoop.eq_def]
  have hmem : (⟨0, 0, angle_normalize 0, 1⟩ : Particle)
      ∈ update_particles_with_odom trueFree 0 1 zeroNoise
        (some ⟨0, 0, 0⟩) ⟨0, 0, 0⟩ [⟨0, 0, 0, 1⟩] := by
    rw [heval]
    simp
  exact heading_in_range_when_noise_zero 0 1 zeroNoise (fun _ => rfl)
    ⟨0, 0, 0⟩ ⟨0, 0, 0⟩ [⟨0, 0, 0, 1⟩] _ hmem

/-- C5 counterexample: with heading noise σ = 1 and a noise draw of 4, the
particle's stored heading after the motion update is
`angle_normalize(θ + dθ) + 4 = 4 > π`, outside (−π, π]: the noise is added
AFTER the normalization, so the claim fails as stated. -/
theorem heading_leaves_range_after_noise :
    ¬ ∀ p ∈ update_particles_with_odom trueFree 0 1 (fun _ => ⟨0, 0, 4⟩)
        (some ⟨0, 0, 0⟩) ⟨0, 0, 0⟩ [⟨0, 0, 0, 1⟩],
      -Real.pi < p.theta ∧ p.theta ≤ Real.pi := by
  intro hall
  have hmem : (⟨0, 0, angle_normalize 0 + 1 * 4, 1⟩ : Particle)
      ∈ update_particles_with_odom trueFree 0 1 (fun _ => ⟨0, 0, 4⟩)
        (some ⟨0, 0, 0⟩) ⟨0, 0, 0⟩ [⟨0, 0, 0, 1⟩] := by
    unfold update_particles_with_odom odomLoop odom_step
    norm_num [trueFree, Real.cos_zero, Real.sin_zero]
    rw [odomLoop.eq_def]
    simp
  have h := (hall _ hmem).2
  rw [angle_normalize_zero] at h
  have : Real.pi < 3.15 := Real.pi_lt_d2
  norm_num at h
  linarith

/-- C1 amended: in every motion update with a previous snapshot present, the
odometry displacement `(dx, dy)` is rotated into the robot's heading frame
at the time of the NEW odometry snapshot (pf.py stores the new snapshot
before computing the rotation): `dx' = cos(θ_new)·dx + sin(θ_new)·dy`,
`dy' = −sin(θ_new)·dx + cos(θ_new)·dy`, as exhibited on an arbitrary single
particle over an all-free map with zero noise. -/
theorem odom_delta_rotated_by_new_heading (xy_sigma_odom theta_sigma_odom : ℝ)
    (cur new : XYTheta) (p : Particle) :
    update_particles_with_odom trueFree xy_sigma_odom theta_sigma_odom
        zeroNoise (some cur) new [p]
      = [{ x := p.x
            + Real.cos p.theta * (Real.cos new.theta * (new.x - cur.x)
                + Real.sin new.theta * (new.y - cur.y))
            - Real.sin p.theta * (-Real.sin new.theta * (new.x - cur.x)
                + Real.cos new.theta * (new.y - cur.y)),
           y := p.y
            + Real.sin p.theta * (Real.cos new.theta * (new.x - cur.x)
                + Real.sin new.theta * (new.y - cur.y))
            + Real.cos p.theta * (-Real.sin new.theta * (new.x - cur.x)
                + Real.cos new.theta * (new.y - cur.y)),
           theta := angle_normalize (p.theta + (new.theta - cur.theta)),
           w := p.w }] := by
  unfold update_particles_with_odom odomLoop odom_step
  simp only [trueFree, if_true, ite_true, zeroNoise, mul_zero, add_zero]
  rw [odomLoop.eq_def]
  simp

/-- C1 counterexample: with previous snapshot `(0, 0, 0)` and new snapshot
`(1, 0, π/2)`, the source rotates the delta by the NEW heading `π/2` and a
particle at the origin with heading `0` lands at `(0, −1)`; the rotation the
claim states (by the PREVIOUS heading `0`) would land it at `(1, 0)`. -/
theorem odom_rotation_differs_from_claim_wording :
    update_particles_with_odom trueFree 0 0 zeroNoise (some ⟨0, 0, 0⟩)
        ⟨1, 0, Real.pi / 2⟩ [⟨0, 0, 0, 1⟩]
      ≠ update_particles_with_odom_specRotation trueFree 0 0 zeroNoise
        (some ⟨0, 0, 0⟩) ⟨1, 0, Real.pi / 2⟩ [⟨0, 0, 0, 1⟩] := by
  have hcode : update_particles_with_odom trueFree 0 0 zeroNoise
      (some ⟨0, 0, 0⟩) ⟨1, 0, Real.pi / 2⟩ [⟨0, 0, 0, 1⟩]
      = [⟨0, -1, angle_normalize (Real.pi / 2), 1⟩] := by
    unfold update_particles_with_odom odomLoop odom_step
    norm_num [trueFree, zeroNoise, Real.cos_pi_div_two, Real.sin_pi_div_two]
    rw [odomLoop.eq_def]
  have hspec : update_particles_with_odom_specRotation trueFree 0 0 zeroNoise
      (some ⟨0, 0, 0⟩) ⟨1, 0, Real.pi / 2⟩ [⟨0, 0, 0, 1⟩]
      = [⟨1, 0, angle_normalize (Real.pi / 2), 1⟩] := by
    unfold update_particles_with_odom_specRotation odomLoop odom_step
    norm_num [trueFree, zeroNoise, Real.cos_zero, Real.sin_zero]
    rw [odomLoop.eq_def]
  rw [hcode, hspec]
  intro h
  simp only [List.cons.injEq, Particle.mk.injEq, and_true] at h
  norm_num at h

/-- C2: evaluation at the failing input.  Over the map `tenFree` (free iff
`x < 10`), with odometry delta `(1, 0, 0)` and zero noise, the first
particle (at `x = 100`) is propagated to `x = 101` and removed; Python's
`list.remove` during `for`-iteration then skips the second particle
(at `x = 50`), which survives the update unpropagated even though both its
current position `(50, 0)` and its would-be propagated position `(51, 0)`
are outside free space. -/
theorem odom_discard_skips_following_particle :
    (update_particles_with_odom tenFree 0 0 zeroNoise (some ⟨0, 0, 0⟩)
        ⟨1, 0, 0⟩ [⟨100, 0, 0, 1⟩, ⟨50, 0, 0, 1⟩]
      = [⟨50, 0, 0, 1⟩])
    ∧ tenFree 50 0 = false ∧ tenFree 51 0 = false := by
  refine ⟨?_, ?_, ?_⟩
  · unfold update_particles_with_odom odomLoop odom_step
    norm_num [tenFree, zeroNoise, Real.cos_zero, Real.sin_zero]
    rw [odomLoop.eq_def]
  · unfold tenFree
    exact decide_eq_false (by norm_num)
  · unfold tenFree
    exact decide_eq_false (by norm_num)

/-- C7: for every particle and every scan, the sensor update sets the
particle's weight to exactly the number of scan points — converted to
Cartesian, shifted by the lidar x-offset, and transformed by that particle's
pose — whose nearest-obstacle distance is strictly below the closeness
threshold; the weight `w0` carried from the previous cycle does not appear
in the result. -/
theorem laser_weight_is_close_point_count (field : ℝ → ℝ → ℝ)
    (close_obs_dist lidar_offset : ℝ) (r th : List ℝ) (p : Particle)
    (w0 : ℝ) :
    update_particles_with_laser field close_obs_dist lidar_offset r th
        [{ p with w := w0 }]
      = [{ p with w :=
          ((((r.zip th).map fun q =>
              (Real.cos p.theta * (Real.cos q.2 * q.1 + lidar_offset)
                - Real.sin p.theta * (Real.sin q.2 * q.1) + p.x,
               Real.sin p.theta * (Real.cos q.2 * q.1 + lidar_offset)
                + Real.cos p.theta * (Real.sin q.2 * q.1) + p.y)).countP
            fun q => decide (field q.1 q.2 < close_obs_dist)) : ℝ) }] := by
  unfold update_particles_with_laser
    Particle.transform_point_particle_to_map_frame
  simp only [List.map_map, List.map_cons, List.map_nil, List.cons.injEq,
    and_true]
  congr 1

theorem exists_mem_forall_le (l : List ℝ) (h : l ≠ []) :
    ∃ a ∈ l, ∀ b ∈ l, b ≤ a := by
  induction l with
  | nil => exact absurd rfl h
  | cons a t ih =>
    rcases eq_or_ne t [] with rfl | hne
    · exact ⟨a, List.mem_singleton_self a, by simp⟩
    · obtain ⟨m, hm, hmax⟩ := ih hne
      rcases le_total a m with hh | hh
      · refine ⟨m, List.mem_cons_of_mem _ hm, ?_⟩
        intro b hb
        rcases List.mem_cons.1 hb with rfl | hbt
        · exact hh
        · exact hmax b hbt
      · refine ⟨a, List.mem_cons_self .., ?_⟩
        intro b hb
        rcases List.mem_cons.1 hb with rfl | hbt
        · exact le_refl b
        · exact le_trans (hmax b hbt) hh

/-- `np_argmax` on a nonempty list returns the index of the first occurrence
of the maximum. -/
theorem np_argmax_first_max (l : List ℝ) (h : l ≠ []) :
    ∃ i, np_argmax l = some i ∧ ∃ hi : i < l.length,
      (∀ b ∈ l, b ≤ l[i]) ∧ ∀ j (hj : j < l.length), j < i → l[j] < l[i] := by
  have hex : ∃ a ∈ l, (fun a => decide (∀ b ∈ l, b ≤ a)) a = true := by
    obtain ⟨a, ha, hmax⟩ := exists_mem_forall_le l h
    exact ⟨a, ha, decide_eq_true hmax⟩
  have hlt : l.findIdx (fun a => decide (∀ b ∈ l, b ≤ a)) < l.length :=
    List.findIdx_lt_length_of_exists hex
  have hmaxi : ∀ b ∈ l, b ≤ l[l.findIdx (fun a => decide (∀ b ∈ l, b ≤ a))] := by
    have h2 := @List.findIdx_getElem _ (fun a => decide (∀ b ∈ l, b ≤ a)) l hlt
    simp only [decide_eq_true_eq] at h2
    exact h2
  refine ⟨l.findIdx (fun a => decide (∀ b ∈ l, b ≤ a)), ?_, hlt, hmaxi, ?_⟩
  · unfold np_argmax
    rw [if_neg (by simpa [List.isEmpty_iff] using h)]
  · intro j hj hjlt
    have hfalse : (fun a => decide (∀ b ∈ l, b ≤ a)) l[j] = false :=
      List.not_of_lt_findIdx hjlt
    have hnot : ¬ ∀ b ∈ l, b ≤ l[j] := of_decide_eq_false hfalse
    push_neg at hnot
    obtain ⟨b, hb, hbgt⟩ := hnot
    exact lt_of_lt_of_le hbgt (hmaxi b hb)

theorem all_zero_of_nonneg_sum_zero (cloud : List Particle)
    (hnn : ∀ p ∈ cloud, 0 ≤ p.w) (hS : (cloud.map Particle.w).sum = 0) :
    ∀ p ∈ cloud, p.w = 0 := by
  intro p hp
  have h1 : p.w ≤ (cloud.map Particle.w).sum :=
    List.single_le_sum (by simpa using hnn) _ (List.mem_map_of_mem _ hp)
  have h2 := hnn p hp
  linarith

/-- C8: for every non-empty population of non-negative weights (with a
nonzero target count, matching the spec's data-model invariant `N ≥ 1`; at
`N = 0` Python's uniform fallback `1/N` would raise), the pose estimator
returns the pose of a particle of maximum weight, ties broken by the first
occurrence in iteration order (mode of the distribution, never a weighted
mean): `update_robot_pose` normalizes, takes `np.argmax` of the weights, and
emits that particle's `(x, y, theta)`. -/
theorem robot_pose_is_first_max_weight_particle (n : ℤ) (odom : XYTheta)
    (cloud : List Particle) (_hn0 : n ≠ 0) (hne : cloud ≠ [])
    (hnn : ∀ p ∈ cloud, 0 ≤ p.w) :
    ∃ i, ∃ hi : i < cloud.length,
      update_robot_pose n odom cloud
        = some ((⟨cloud[i].x, cloud[i].y, cloud[i].theta⟩, odom),
            normalize_particles n cloud)
      ∧ (∀ p ∈ cloud, p.w ≤ cloud[i].w)
      ∧ ∀ j (hj : j < cloud.length), j < i → cloud[j].w < cloud[i].w := by
  have hlen : (normalize_particles n cloud).length = cloud.length := by
    simp [normalize_particles]
  have hlenW : ((normalize_particles n cloud).map Particle.w).length
      = cloud.length := by simp [hlen]
  have hneW : (normalize_particles n cloud).map Particle.w ≠ [] := by
    simp only [ne_eq, List.map_eq_nil_iff]
    intro hc
    exact hne (by simpa [normalize_particles] using hc)
  obtain ⟨i, hargm, hi, hmax, hfirst⟩ :=
    np_argmax_first_max ((normalize_particles n cloud).map Particle.w) hneW
  have hilen : i < cloud.length := by omega
  have hWj : ∀ j (hj : j < cloud.length),
      ((normalize_particles n cloud).map Particle.w)[j]
        = (if (cloud.map Particle.w).sum = 0 then 1 / (n : ℝ)
           else cloud[j].w / (cloud.map Particle.w).sum) := by
    intro j hj
    have hj2 : j < (normalize_particles n cloud).length := by omega
    simp only [List.getElem_map, normalize_particles]
    split <;> rfl
  have hbest : (normalize_particles n cloud).getD i ⟨0, 0, 0, 0⟩
      = (normalize_particles n cloud)[i] := by
    have hi2 : i < (normalize_particles n cloud).length := by omega
    exact List.getD_eq_getElem _ _ hi2
  have hfields : (normalize_particles n cloud)[i].x = cloud[i].x
      ∧ (normalize_particles n cloud)[i].y = cloud[i].y
      ∧ (normalize_particles n cloud)[i].theta = cloud[i].theta := by
    simp only [normalize_particles, List.getElem_map]
    refine ⟨?_, ?_, ?_⟩ <;> (split <;> rfl)
  have hupd : update_robot_pose n odom cloud
      = some ((⟨cloud[i].x, cloud[i].y, cloud[i].theta⟩, odom),
          normalize_particles n cloud) := by
    simp only [update_robot_pose]
    rw [hargm]
    simp only [hbest, hfields.1, hfields.2.1, hfields.2.2]
  refine ⟨i, hilen, hupd, ?_, ?_⟩
  · rcases eq_or_ne ((cloud.map Particle.w).sum) 0 with hS | hS
    · have hz := all_zero_of_nonneg_sum_zero cloud hnn hS
      intro p hp
      rw [hz p hp, hz _ (List.getElem_mem _)]
    · have hSpos : 0 < (cloud.map Particle.w).sum :=
        lt_of_le_of_ne (List.sum_nonneg (by simpa using hnn)) (Ne.symm hS)
      intro p hp
      have hmem : p.w / (cloud.map Particle.w).sum
          ∈ (normalize_particles n cloud).map Particle.w := by
        simp only [normalize_particles, List.map_map]
        refine List.mem_map.2 ⟨p, hp, ?_⟩
        simp [Function.comp, hS]
      have h1 := hmax _ hmem
      rw [hWj i hilen] at h1
      rw [if_neg hS] at h1
      exact (div_le_div_iff_of_pos_right hSpos).1 h1
  · intro j hj hjlt
    rcases eq_or_ne ((cloud.map Particle.w).sum) 0 with hS | hS
    · exfalso
      have h0 : (0 : ℕ) < i := Nat.lt_of_le_of_lt (Nat.zero_le j) hjlt
      have hlt0 := hfirst 0 (by omega) h0
      rw [hWj 0 (by omega), hWj i hilen, if_pos hS, if_pos hS] at hlt0
      exact lt_irrefl _ hlt0
    · have hSpos : 0 < (cloud.map Particle.w).sum :=
        lt_of_le_of_ne (List.sum_nonneg (by simpa using hnn)) (Ne.symm hS)
      have hlt := hfirst j (by omega) hjlt
      rw [hWj j hj, hWj i hilen, if_neg hS, if_neg hS] at hlt
      exact (div_lt_div_iff_of_pos_right hSpos).1 hlt

theorem robot_pose_is_first_max_weight_particle_witness :
    ∃ i, ∃ hi : i < ([⟨3, 4, 5, 2⟩, ⟨6, 7, 8, 9⟩] : List Particle).length,
      update_robot_pose 300 ⟨0, 0, 0⟩ [⟨3, 4, 5, 2⟩, ⟨6, 7, 8, 9⟩]
        = some ((⟨([⟨3, 4, 5, 2⟩, ⟨6, 7, 8, 9⟩] : List Particle)[i].x,
                 ([⟨3, 4, 5, 2⟩, ⟨6, 7, 8, 9⟩] : List Particle)[i].y,
                 ([⟨3, 4, 5, 2⟩, ⟨6, 7, 8, 9⟩] : List Particle)[i].theta⟩,
                ⟨0, 0, 0⟩),
            normalize_particles 300 [⟨3, 4, 5, 2⟩, ⟨6, 7, 8, 9⟩])
      ∧ (∀ p ∈ ([⟨3, 4, 5, 2⟩, ⟨6, 7, 8, 9⟩] : List Particle),
          p.w ≤ ([⟨3, 4, 5, 2⟩, ⟨6, 7, 8, 9⟩] : List Particle)[i].w)
      ∧ ∀ j (hj : j < ([⟨3, 4, 5, 2⟩, ⟨6, 7, 8, 9⟩] : List Particle).length),
          j < i → ([⟨3, 4, 5, 2⟩, ⟨6, 7, 8, 9⟩] : List Particle)[j].w
            < ([⟨3, 4, 5, 2⟩, ⟨6, 7, 8, 9⟩] : List Particle)[i].w := by
  refine robot_pose_is_first_max_weight_particle 300 ⟨0, 0, 0⟩ _ (by norm_num)
    (by simp) ?_
  intro p hp
  simp only [List.mem_cons, List.not_mem_nil, or_false] at hp
  rcases hp with rfl | rfl <;> norm_num

theorem np_argmax_singleton (x : ℝ) : np_argmax [x] = some 0 := by
  unfold np_argmax
  rw [if_neg (by simp)]
  congr 1
  rw [List.findIdx_cons]
  rw [show (decide (∀ b ∈ [x], b ≤ x)) = true from decide_eq_true (by simp)]
  rfl

theorem moved_one_zero :
    moved_far_enough_to_update (0.02 : ℝ) (Real.pi / 6) ⟨0, 0, 0⟩ ⟨1, 0, 0⟩
      = true := by
  unfold moved_far_enough_to_update
  rw [show (decide (|(⟨1, 0, 0⟩ : XYTheta).x - (⟨0, 0, 0⟩ : XYTheta).x|
      > (0.02 : ℝ))) = true from decide_eq_true (by norm_num)]
  simp

theorem odom_collapse_eval :
    update_particles_with_odom tenFree (0.1 : ℝ) (0.1 : ℝ) zeroNoise
      (some ⟨0, 0, 0⟩) ⟨1, 0, 0⟩ [⟨100, 0, 0, 1⟩] = [] := by
  unfold update_particles_with_odom odomLoop odom_step
  norm_num [tenFree, zeroNoise, Real.cos_zero, Real.sin_zero]

theorem laser_empty_scan (field : ℝ → ℝ → ℝ) (cod lo : ℝ)
    (cloud : List Particle) :
    update_particles_with_laser field cod lo [] [] cloud
      = cloud.map fun p => { p with w := 0 } := by
  unfold update_particles_with_laser
  simp

theorem robot_pose_empty (n : ℤ) (odom : XYTheta) :
    update_robot_pose n odom [] = none := by
  unfold update_robot_pose normalize_particles np_argmax
  simp

/-- C3: population collapse mid-cycle is fatal, contrary to the claim.  From
a state whose single particle is propagated off-map (`stCollapse`, over the
map `tenFree`), the motion update empties the cloud and `update_robot_pose`
then calls `np.argmax` on an empty sequence — a `ValueError` (modelled as
`none`) that escapes `run_loop` and kills the estimation thread, so no
re-initialization can happen on a next cycle. -/
theorem population_collapse_kills_cycle :
    run_loop envCollapse stCollapse = none
    ∧ stCollapse.particle_cloud ≠ [] := by
  constructor
  · unfold run_loop
    simp only [stCollapse, envCollapse, initState, List.isEmpty_cons,
      Bool.false_eq_true, if_false, moved_one_zero, if_true, ite_true,
      ite_false, odom_collapse_eval, laser_empty_scan, List.map_nil,
      robot_pose_empty]
  · simp [stCollapse]

theorem odom_origin_eval :
    update_particles_with_odom trueFree (0.1 : ℝ) (0.1 : ℝ) zeroNoise
      (some ⟨0, 0, 0⟩) ⟨1, 0, 0⟩ [⟨0, 0, 0, 1⟩]
      = [⟨1, 0, angle_normalize 0, 1⟩] := by
  unfold update_particles_with_odom odomLoop odom_step
  norm_num [trueFree, zeroNoise, Real.cos_zero, Real.sin_zero]
  rw [odomLoop.eq_def]

theorem normalize_single_zero (n : ℤ) (p : Particle) (hw : p.w = 0) :
    normalize_particles n [p] = [{ p with w := 1 / (n : ℝ) }] := by
  unfold normalize_particles
  simp [hw]

theorem robot_pose_single (n : ℤ) (odom : XYTheta) (p : Particle)
    (hw : p.w = 0) :
    update_robot_pose n odom [p]
      = some ((⟨p.x, p.y, p.theta⟩, odom), [{ p with w := 1 / (n : ℝ) }]) := by
  unfold update_robot_pose
  rw [normalize_single_zero n p hw]
  simp only [List.map_cons, List.map_nil]
  rw [np_argmax_singleton]
  rfl

theorem resample_empty_draw (noise : ℕ → OdomNoise) (n : ℤ)
    (xy_sigma theta_sigma : ℝ) (cloud : List Particle) :
    resample_particles (fun _ _ _ => []) noise n xy_sigma theta_sigma cloud
      = [] := by
  unfold resample_particles
  simp

theorem decayed_one : decayed_n 1 (0.98 : ℝ) = 0 := by
  unfold decayed_n pyInt
  norm_num

theorem run_loop_stOne_eval :
    ∃ st', run_loop envCycle stOne = some st' ∧ st'.n_particles = 0
      ∧ st'.current_odom_xy_theta = some ⟨1, 0, 0⟩ := by
  unfold run_loop
  simp only [stOne, envCycle, initState, List.isEmpty_cons,
    Bool.false_eq_true, if_false, moved_one_zero, if_true, ite_true,
    ite_false, odom_origin_eval, laser_empty_scan, List.map_cons,
    List.map_nil]
  rw [robot_pose_single 1 ⟨1, 0, 0⟩ ⟨1, 0, angle_normalize 0, 0⟩ rfl]
  simp only [resample_empty_draw, decayed_one]
  exact ⟨_, rfl, rfl, rfl⟩

/-- C6 counterexample: from `stOne` (target count `N = 1`), one completed
update cycle sets `N` to `int(1 * 0.98) = 0`, so no configured minimum
`≥ 1` is ever enforced: the source decays `n_particles` with no floor. -/
theorem n_particles_decays_below_one :
    stOne.n_particles = 1
    ∧ (run_loop envCycle stOne).map PFState.n_particles = some 0 := by
  obtain ⟨st', h, hn, _⟩ := run_loop_stOne_eval
  refine ⟨rfl, ?_⟩
  rw [h]
  simpa using hn

theorem decayed_n_le (n : ℤ) (rate : ℝ) (hn : 0 ≤ n) (h0 : 0 ≤ rate)
    (h1 : rate ≤ 1) : decayed_n n rate ≤ n := by
  unfold decayed_n pyInt
  have hcast : (0 : ℝ) ≤ (n : ℝ) := by exact_mod_cast hn
  have hnn : (0 : ℝ) ≤ (n : ℝ) * rate := mul_nonneg hcast h0
  rw [if_pos hnn]
  have hle : (n : ℝ) * rate ≤ ((n : ℤ) : ℝ) := by nlinarith
  calc ⌊(n : ℝ) * rate⌋ ≤ ⌊((n : ℤ) : ℝ)⌋ := Int.floor_le_floor hle
    _ = n := Int.floor_intCast n

/-- C6 amended: over any completed `run_loop` cycle with `0 ≤ N` and decay
rate in `[0, 1]`, the target count either stays unchanged (no full update
this cycle) or is decayed exactly once, `N ← int(N · decay_rate)`, and it
never increases; but the source enforces NO lower floor, so `N` can reach
`0` (see the counterexample). -/
theorem n_particles_decay_per_cycle (env : Env) (st st' : PFState)
    (h : run_loop env st = some st') (hn : 0 ≤ st.n_particles)
    (h0 : 0 ≤ st.particle_decay_rate) (h1 : st.particle_decay_rate ≤ 1) :
    (st'.n_particles = st.n_particles
      ∨ st'.n_particles = decayed_n st.n_particles st.particle_decay_rate)
    ∧ st'.n_particles ≤ st.n_particles := by
  have key : st'.n_particles = st.n_particles
      ∨ st'.n_particles = decayed_n st.n_particles st.particle_decay_rate := by
    unfold run_loop at h
    dsimp only at h
    split at h
    · left
      cases h
      rfl
    · split at h
      · split at h
        · split at h
          · left
            cases h
            rfl
          · left
            cases h
            rfl
        · left
          cases h
          rfl
      · split at h
        · left
          cases h
          rfl
        · split at h
          · left
            cases h
            rfl
          · split at h
            · split at h
              · exact absurd h (by simp)
              · right
                cases h
                rfl
            · left
              cases h
              rfl
  refine ⟨key, ?_⟩
  rcases key with hk | hk
  · rw [hk]
  · rw [hk]
    exact decayed_n_le _ _ hn h0 h1

theorem n_particles_decay_per_cycle_witness :
    ∃ st', run_loop envCycle stOne = some st'
      ∧ ((st'.n_particles = stOne.n_particles
          ∨ st'.n_particles = decayed_n stOne.n_particles
              stOne.particle_decay_rate)
        ∧ st'.n_particles ≤ stOne.n_particles) := by
  obtain ⟨st', h, _, _⟩ := run_loop_stOne_eval
  exact ⟨st', h, n_particles_decay_per_cycle envCycle stOne st' h
    (by norm_num [stOne, initState]) (by norm_num [stOne, initState])
    (by norm_num [stOne, initState])⟩

theorem angle_normalize_wrap :
    angle_normalize (-Real.pi + 1 / 100 - (Real.pi - 1 / 100)) = 1 / 50 := by
  have hπ := Real.pi_pos
  have harg : -Real.pi + 1 / 100 - (Real.pi - 1 / 100)
      = 1 / 50 - 2 * Real.pi := by ring
  rw [harg]
  unfold angle_normalize
  have hc : ⌈(1 / 50 - 2 * Real.pi - Real.pi) / (2 * Real.pi)⌉ = -1 := by
    rw [Int.ceil_eq_iff]
    constructor
    · rw [lt_div_iff₀ (by linarith : (0 : ℝ) < 2 * Real.pi)]
      push_cast
      nlinarith [Real.pi_gt_three]
    · rw [div_le_iff₀ (by linarith : (0 : ℝ) < 2 * Real.pi)]
      push_cast
      nlinarith [Real.pi_gt_three]
  rw [hc]
  push_cast
  ring

theorem moved_wrap :
    moved_far_enough_to_update (0.02 : ℝ) (Real.pi / 6)
      ⟨0, 0, Real.pi - 1 / 100⟩ ⟨0, 0, -Real.pi + 1 / 100⟩ = true := by
  unfold moved_far_enough_to_update
  have h3 : decide (|(⟨0, 0, -Real.pi + 1 / 100⟩ : XYTheta).theta
      - (⟨0, 0, Real.pi - 1 / 100⟩ : XYTheta).theta| > Real.pi / 6) = true := by
    apply decide_eq_true
    show |(-Real.pi + 1 / 100) - (Real.pi - 1 / 100)| > Real.pi / 6
    rw [show (-Real.pi + 1 / 100) - (Real.pi - 1 / 100)
        = 1 / 50 - 2 * Real.pi from by ring]
    rw [abs_of_neg (by nlinarith [Real.pi_gt_three])]
    nlinarith [Real.pi_gt_three]
  rw [h3]
  simp

theorem odom_wrap_eval :
    update_particles_with_odom trueFree (0.1 : ℝ) (0.1 : ℝ) zeroNoise
      (some ⟨0, 0, Real.pi - 1 / 100⟩) ⟨0, 0, -Real.pi + 1 / 100⟩
      [⟨0, 0, 0, 1⟩]
      = [⟨0, 0,
          angle_normalize (-Real.pi + 1 / 100 - (Real.pi - 1 / 100)), 1⟩] := by
  unfold update_particles_with_odom odomLoop odom_step
  simp only [trueFree, zeroNoise, Real.cos_zero, Real.sin_zero, sub_self,
    mul_zero, zero_mul, add_zero, zero_add, one_mul, sub_zero, if_true,
    ite_true]
  rw [odomLoop.eq_def]
  simp

theorem run_loop_stWrap_eval :
    ∃ st', run_loop envWrap stWrap = some st'
      ∧ st'.current_odom_xy_theta = some ⟨0, 0, -Real.pi + 1 / 100⟩ := by
  unfold run_loop
  simp only [stWrap, envWrap, initState, List.isEmpty_cons,
    Bool.false_eq_true, if_false, moved_wrap, if_true, ite_true, ite_false,
    odom_wrap_eval, laser_empty_scan, List.map_cons, List.map_nil]
  rw [robot_pose_single 300 ⟨0, 0, -Real.pi + 1 / 100⟩
    ⟨0, 0, angle_normalize (-Real.pi + 1 / 100 - (Real.pi - 1 / 100)), 0⟩ rfl]
  simp only [resample_empty_draw]
  exact ⟨_, rfl, rfl⟩

/-- C10: the gating check uses raw heading differences with no angle
normalization: for the snapshot pair with headings `π − 0.01` and
`−π + 0.01` (same position), the normalized heading change is `1/50`, well
below `a_thresh = π/6`, yet `moved_far_enough_to_update` returns `true` and
a full filter cycle runs (observable here by the cycle storing the new
odometry snapshot). -/
theorem gating_fires_across_pi_boundary :
    moved_far_enough_to_update initState.d_thresh initState.a_thresh
        ⟨0, 0, Real.pi - 1 / 100⟩ ⟨0, 0, -Real.pi + 1 / 100⟩ = true
    ∧ |angle_normalize (-Real.pi + 1 / 100 - (Real.pi - 1 / 100))|
        < initState.a_thresh
    ∧ ∃ st', run_loop envWrap stWrap = some st'
        ∧ st'.current_odom_xy_theta = some ⟨0, 0, -Real.pi + 1 / 100⟩
        ∧ st'.current_odom_xy_theta ≠ stWrap.current_odom_xy_theta := by
  refine ⟨?_, ?_, ?_⟩
  · show moved_far_enough_to_update (0.02 : ℝ) (Real.pi / 6) _ _ = true
    exact moved_wrap
  · rw [angle_normalize_wrap]
    show |(1 : ℝ) / 50| < Real.pi / 6
    rw [abs_of_pos (by norm_num)]
    nlinarith [Real.pi_gt_three]
  · obtain ⟨st', h, hc⟩ := run_loop_stWrap_eval
    refine ⟨st', h, hc, ?_⟩
    rw [hc]
    show some (⟨0, 0, -Real.pi + 1 / 100⟩ : XYTheta)
      ≠ some (⟨0, 0, Real.pi - 1 / 100⟩ : XYTheta)
    intro hEq
    have hth : (-Real.pi + 1 / 100 : ℝ) = Real.pi - 1 / 100 := by
      have := Option.some.inj hEq
      exact congrArg XYTheta.theta this
    nlinarith [Real.pi_gt_three]

end RobotLocalization
